import Mathlib

/-!
Verification development for the AI-powered GitHub Actions workflow validator
(scripts/common/ai-workflow-validator.py).

The Python script is shallowly embedded: strings manipulated character-wise are
modelled as `List Char`, the file system as a partial map from paths to
contents, the YAML library and the remote completion service as oracle fields
of an `Env` record, and Python exceptions as an explicit `PyError` value
threaded through `Except`-style results.  Each definition mirrors one Python
function of the source file and is named after it where possible.
-/

namespace WorkflowValidatorModel

/-! ## Python string primitives on `List Char` -/

/-- Characters treated as whitespace by the Python `str.strip` method. -/
def pyWs (c : Char) : Bool :=
  c == ' ' || c == '\t' || c == '\n' || c == '\r' || c == '\x0b' || c == '\x0c'

/-- Drop whitespace from the right end, as the right half of Python `strip`. -/
def rdropWhileP (p : Char → Bool) (l : List Char) : List Char :=
  (l.reverse.dropWhile p).reverse

/-- Python `str.strip()`: drop whitespace from both ends. -/
def pyStrip (l : List Char) : List Char :=
  rdropWhileP pyWs (l.dropWhile pyWs)

/-- Python `str.split(sep)` for a single separator character. -/
def splitChar (c : Char) : List Char → List (List Char)
  | [] => [[]]
  | a :: s =>
    match splitChar c s with
    | [] => [[]]
    | h :: t => if a = c then [] :: h :: t else (a :: h) :: t

/-- Python `sep.join(lines)` for a single separator character. -/
def joinChar (c : Char) : List (List Char) → List Char
  | [] => []
  | l :: ls =>
    match ls with
    | [] => l
    | _ :: _ => l ++ c :: joinChar c ls

/-- Index of the first element satisfying `p`, as Python loop-with-break scans. -/
def findIdxP (p : α → Bool) : List α → Option Nat
  | [] => none
  | a :: l => if p a then some 0 else (findIdxP p l).map (fun n => n + 1)

/-- Python `str.startswith(pat)` on character lists: first argument is the pattern. -/
def listStartsWith : List Char → List Char → Bool
  | [], _ => true
  | _ :: _, [] => false
  | p :: ps, c :: cs => p == c && listStartsWith ps cs

/-! ### Lemmas on the string primitives -/

theorem splitChar_ne_nil (c : Char) (s : List Char) : splitChar c s ≠ [] := by
  cases s with
  | nil => simp [splitChar]
  | cons a s =>
    simp only [splitChar]
    match h : splitChar c s with
    | [] => simp
    | h₁ :: t => by_cases hc : a = c <;> simp [hc]

theorem splitChar_cons_sep (c : Char) (s : List Char) :
    splitChar c (c :: s) = [] :: splitChar c s := by
  simp only [splitChar]
  match h : splitChar c s with
  | [] => exact absurd h (splitChar_ne_nil c s)
  | h₁ :: t => simp

theorem splitChar_cons_ne (c a : Char) (s : List Char) (hac : a ≠ c) :
    ∃ h t, splitChar c s = h :: t ∧ splitChar c (a :: s) = (a :: h) :: t := by
  match hs : splitChar c s with
  | [] => exact absurd hs (splitChar_ne_nil c s)
  | h₁ :: t =>
    refine ⟨h₁, t, rfl, ?_⟩
    simp only [splitChar, hs]
    simp [hac]

theorem splitChar_append (c : Char) (x y : List Char) :
    splitChar c (x ++ c :: y) = splitChar c x ++ splitChar c y := by
  induction x with
  | nil =>
    rw [List.nil_append, splitChar_cons_sep]
    simp [splitChar]
  | cons a x ih =>
    by_cases hac : a = c
    · subst hac
      rw [List.cons_append, splitChar_cons_sep, splitChar_cons_sep, ih]
      rfl
    · obtain ⟨h₂, t₂, hx, hcons₂⟩ := splitChar_cons_ne c a x hac
      have hxy : splitChar c (x ++ c :: y) = h₂ :: (t₂ ++ splitChar c y) := by
        rw [ih, hx]; rfl
      obtain ⟨h, t, hxy2, hcons⟩ := splitChar_cons_ne c a (x ++ c :: y) hac
      rw [List.cons_append, hcons, hcons₂]
      rw [hxy] at hxy2
      injection hxy2 with e1 e2
      subst e1
      subst e2
      simp

theorem splitChar_no_sep (c : Char) (s : List Char) (h : s.all (fun a => !(a == c))) :
    splitChar c s = [s] := by
  induction s with
  | nil => rfl
  | cons a s ih =>
    simp only [List.all_cons, Bool.and_eq_true, Bool.not_eq_true', beq_eq_false_iff_ne] at h
    obtain ⟨hac, hs⟩ := h
    obtain ⟨h₁, t, hsplit, hcons⟩ := splitChar_cons_ne c a s hac
    rw [hcons]
    rw [ih (by simpa [List.all_eq_true] using hs)] at hsplit
    cases hsplit
    rfl

theorem joinChar_splitChar (c : Char) (s : List Char) :
    joinChar c (splitChar c s) = s := by
  induction s with
  | nil => rfl
  | cons a s ih =>
    by_cases hac : a = c
    · subst hac
      rw [splitChar_cons_sep]
      match h : splitChar a s with
      | [] => exact absurd h (splitChar_ne_nil a s)
      | h₁ :: t =>
        simp only [joinChar]
        rw [h] at ih
        simpa using ih
    · obtain ⟨h₁, t, hsplit, hcons⟩ := splitChar_cons_ne c a s hac
      rw [hcons]
      rw [hsplit] at ih
      cases t with
      | nil => simpa [joinChar] using ih
      | cons t₁ ts => simpa [joinChar] using ih

theorem findIdxP_eq_none_iff (p : α → Bool) (l : List α) :
    findIdxP p l = none ↔ ∀ a ∈ l, p a = false := by
  induction l with
  | nil => simp [findIdxP]
  | cons a l ih =>
    by_cases hp : p a <;> simp [findIdxP, hp, ih]

theorem dropWhile_append_eq (p : Char → Bool) (x y : List Char) :
    (x ++ y).dropWhile p =
      if x.dropWhile p = [] then y.dropWhile p else x.dropWhile p ++ y := by
  induction x with
  | nil => simp
  | cons a x ih =>
    by_cases hp : p a
    · simpa [List.dropWhile_cons, hp] using ih
    · simp [List.dropWhile_cons, hp]

theorem rdropWhileP_eq_nil_iff (p : Char → Bool) (l : List Char) :
    rdropWhileP p l = [] ↔ l.reverse.dropWhile p = [] := by
  unfold rdropWhileP
  constructor
  · intro h
    have := congrArg List.reverse h
    simpa using this
  · intro h
    simp [h]

theorem rdropWhileP_append (p : Char → Bool) (x y : List Char) :
    rdropWhileP p (x ++ y) =
      if rdropWhileP p y = [] then rdropWhileP p x else x ++ rdropWhileP p y := by
  unfold rdropWhileP
  rw [List.reverse_append, dropWhile_append_eq]
  by_cases h : y.reverse.dropWhile p = []
  · rw [if_pos h, if_pos (by simp [h])]
  · rw [if_neg h, if_neg (by simp [h])]
    simp

theorem rdropWhileP_concat (p : Char → Bool) (x : List Char) (a : Char) :
    rdropWhileP p (x ++ [a]) = if p a then rdropWhileP p x else x ++ [a] := by
  rw [rdropWhileP_append]
  by_cases hp : p a
  · rw [if_pos hp, if_pos (by simp [rdropWhileP, List.dropWhile_cons, hp])]
  · rw [if_neg hp, if_neg (by simp [rdropWhileP, List.dropWhile_cons, hp])]
    simp [rdropWhileP, List.dropWhile_cons, hp]

theorem dropWhile_idem_char (p : Char → Bool) (l : List Char) :
    (l.dropWhile p).dropWhile p = l.dropWhile p := by
  induction l with
  | nil => simp
  | cons a l ih =>
    by_cases hp : p a <;> simp [List.dropWhile_cons, hp, ih]

theorem rdropWhileP_idem (p : Char → Bool) (l : List Char) :
    rdropWhileP p (rdropWhileP p l) = rdropWhileP p l := by
  unfold rdropWhileP
  rw [List.reverse_reverse, dropWhile_idem_char]

theorem dropWhile_head_false (p : Char → Bool) (l : List Char) :
    l.dropWhile p = [] ∨ ∃ a t, l.dropWhile p = a :: t ∧ p a = false := by
  induction l with
  | nil => exact Or.inl rfl
  | cons a l ih =>
    by_cases hp : p a
    · simpa [List.dropWhile_cons, hp] using ih
    · exact Or.inr ⟨a, l, by simp [List.dropWhile_cons, hp], by simpa using hp⟩

theorem rdropWhileP_eq_append (p : Char → Bool) (l : List Char) :
    ∃ w, l = rdropWhileP p l ++ w := by
  refine ⟨(l.reverse.takeWhile p).reverse, ?_⟩
  unfold rdropWhileP
  conv_rhs => rw [← List.reverse_append]
  rw [List.takeWhile_append_dropWhile, List.reverse_reverse]

theorem dropWhile_rdropWhileP_dropWhile (p : Char → Bool) (l : List Char) :
    (rdropWhileP p (l.dropWhile p)).dropWhile p = rdropWhileP p (l.dropWhile p) := by
  rcases dropWhile_head_false p l with h | ⟨a, t, h, hpa⟩
  · simp [h, rdropWhileP]
  · rcases hv : rdropWhileP p (l.dropWhile p) with _ | ⟨b, t₂⟩
    · simp
    · obtain ⟨w, hw⟩ := rdropWhileP_eq_append p (l.dropWhile p)
      rw [hv] at hw
      rw [h] at hw
      have hb : b = a := by
        have := hw.symm
        injection this
      subst hb
      simp [List.dropWhile_cons, hpa]

theorem pyStrip_idem (l : List Char) : pyStrip (pyStrip l) = pyStrip l := by
  unfold pyStrip
  rw [dropWhile_rdropWhileP_dropWhile, rdropWhileP_idem]

theorem pyStrip_nil : pyStrip [] = [] := rfl

/-- Stripping a string whose left end already starts with non-whitespace and
whose right end already ends with non-whitespace leaves it unchanged.  The ends
are given as concrete non-whitespace blocks `x` and `y`. -/
theorem pyStrip_eq_self_of_blocks (x m y : List Char)
    (hx : x.dropWhile pyWs = x) (hxne : x ≠ [])
    (hy : rdropWhileP pyWs y = y) (hyne : y ≠ []) :
    pyStrip (x ++ m ++ y) = x ++ m ++ y := by
  unfold pyStrip
  rw [List.append_assoc, dropWhile_append_eq, if_neg (by rw [hx]; exact hxne), hx]
  rw [← List.append_assoc, rdropWhileP_append, if_neg (by rw [hy]; exact hyne), hy]

/-! ## Data model

YAML values as produced by the parsing library.  Keys of mappings can be
strings or booleans (the script explicitly checks for boolean keys, a known
YAML pitfall where an unquoted `on` is parsed as `True`). -/

inductive YKey where
  | str (s : String)
  | bool (b : Bool)
deriving DecidableEq

inductive Yaml where
  | null
  | bool (b : Bool)
  | int (n : Int)
  | str (s : String)
  | seq (xs : List Yaml)
  | map (kvs : List (YKey × Yaml))

/-- One recorded validation issue.  The Python code stores plain strings; the
constructors carry exactly the data interpolated into each f-string of the
source, and `renderIssue` below produces the exact rendered text. -/
inductive Issue where
  | yamlSyntaxError (path details : String)
  | fileError (path details : String)
  | cannotRead (path details : String)
  | missingFields (path : String) (fields : List String)
  | booleanKey (path : String) (key : Bool)
  | jobMissingRunsOn (path : String) (job : YKey)
  | jobMissingSteps (path : String) (job : YKey)
deriving DecidableEq

/-- Python `repr` of a boolean. -/
def pyBool : Bool → String
  | true => "True"
  | false => "False"

/-- Rendering of a key inside an f-string. -/
def pyKeyStr : YKey → String
  | .str s => s
  | .bool b => pyBool b

/-- Python `repr` of a list of strings, as interpolated by an f-string. -/
def pyReprStrList (fields : List String) : String :=
  "[" ++ String.intercalate ", " (fields.map (fun s => "\x27" ++ s ++ "\x27")) ++ "]"

/-- The exact issue strings appended by the Python source. -/
def renderIssue : Issue → String
  | .yamlSyntaxError path details => "YAML syntax error in " ++ path ++ ": " ++ details
  | .fileError path details => "File error in " ++ path ++ ": " ++ details
  | .cannotRead path details => "Cannot read " ++ path ++ ": " ++ details
  | .missingFields path fields =>
      "Missing required fields in " ++ path ++ ": " ++ pyReprStrList fields
  | .booleanKey path key =>
      "Boolean key detected in " ++ path ++ ": " ++ pyBool key
        ++ " (likely \x27on\x27 parsed as True)"
  | .jobMissingRunsOn path job =>
      "Job \x27" ++ pyKeyStr job ++ "\x27 missing \x27runs-on\x27 in " ++ path
  | .jobMissingSteps path job =>
      "Job \x27" ++ pyKeyStr job ++ "\x27 missing \x27steps\x27 in " ++ path

/-- Python exceptions that the modelled code can raise or propagate. -/
inductive PyError where
  | typeError (msg : String)
  | attributeError (msg : String)
  | unboundLocal (name : String)
  | fileNotFound (path : String)
deriving DecidableEq

/-- Outcome of `yaml.safe_load` on a given file content: success (possibly the
null document), a `yaml.YAMLError`, or any other exception raised while
reading (encoding errors and the like). -/
inductive ParseOutcome where
  | ok (v : Yaml)
  | yamlError (details : String)
  | readError (details : String)

/-- The file system: a partial map from paths to file contents. -/
abbrev FS := String → Option String

def fsWrite (fs : FS) (path content : String) : FS :=
  fun q => if q = path then some content else fs q

/-- Model of `os.rename src dst` on the file-content map. -/
def fsRename (fs : FS) (src dst : String) : FS :=
  fun q => if q = dst then fs src else if q = src then none else fs q

/-- External collaborators of the script: the YAML parsing library, the remote
Granite completion endpoint (already reduced to the stripped text of the first
choice, with the empty string as the failure sentinel, as
`GraniteAIClient.complete` does), and the directory glob. -/
structure Env where
  parse : String → ParseOutcome
  complete : String → Nat → String
  dirFiles : String → Option (List String)

/-! ## Embedded source functions -/

/-- WorkflowValidator.required_fields. -/
def required_fields : List String := ["name", "on", "jobs"]

/-- Python `==` between a dict key and a string literal. -/
def yKeyEqStr (k : YKey) (f : String) : Bool :=
  match k with
  | .str s => s == f
  | .bool _ => false

/-- Python `f in d` for a dict `d`: membership among keys. -/
def hasKeyStr (kvs : List (YKey × Yaml)) (f : String) : Bool :=
  kvs.any (fun kv => yKeyEqStr kv.1 f)

/-- Python `d[f]` for a dict, defined when the key is present. -/
def lookupKey : List (YKey × Yaml) → String → Option Yaml
  | [], _ => none
  | kv :: rest, f => if yKeyEqStr kv.1 f then some kv.2 else lookupKey rest f

/-- Python `==` between an arbitrary YAML value and a string literal. -/
def valEqStr (v : Yaml) (f : String) : Bool :=
  match v with
  | .str s => s == f
  | _ => false

/-- Python substring test `pat in s` on character lists. -/
def listIsSub (pat : List Char) : List Char → Bool
  | [] => listStartsWith pat []
  | c :: cs => listStartsWith pat (c :: cs) || listIsSub pat cs

/-- Python `f in data` with dynamic semantics: key membership for dicts,
element membership for lists, substring test for strings, and a `TypeError`
for values that are not containers (None, booleans, integers). -/
def pyContains (f : String) (data : Yaml) : Except PyError Bool :=
  match data with
  | .map kvs => .ok (hasKeyStr kvs f)
  | .seq xs => .ok (xs.any (fun v => valEqStr v f))
  | .str s => .ok (listIsSub f.toList s.toList)
  | .null => .error (.typeError ("argument of type \x27NoneType\x27 is not iterable"))
  | .bool _ => .error (.typeError ("argument of type \x27bool\x27 is not iterable"))
  | .int _ => .error (.typeError ("argument of type \x27int\x27 is not iterable"))

/-- The comprehension building `missing_fields`, evaluating the membership
tests left to right and propagating the first exception. -/
def missingFieldsList (data : Yaml) : List String → Except PyError (List String)
  | [] => .ok []
  | f :: rest =>
    match pyContains f data with
    | .error e => .error e
    | .ok b =>
      match missingFieldsList data rest with
      | .error e => .error e
      | .ok ms => .ok (if b then ms else f :: ms)

/-- Python `data.keys()`: only dicts have the attribute. -/
def pyKeys (data : Yaml) : Except PyError (List YKey) :=
  match data with
  | .map kvs => .ok (kvs.map Prod.fst)
  | _ => .error (.attributeError ("object has no attribute \x27keys\x27"))

/-- The boolean-key detection loop over `data.keys()`, in key order. -/
def boolKeyIssues (path : String) : List YKey → List Issue
  | [] => []
  | .bool b :: ks => Issue.booleanKey path b :: boolKeyIssues path ks
  | .str _ :: ks => boolKeyIssues path ks

/-- The per-job checks of the jobs loop body: a job whose value is not a dict
is skipped; a job carrying a `uses` key is a reusable workflow and skips the
`runs-on` and `steps` checks; otherwise each absent key is one issue. -/
def jobIssues (path : String) (job_name : YKey) (job_config : Yaml) : List Issue :=
  match job_config with
  | .map kvs =>
    let is_reusable_workflow := hasKeyStr kvs ("uses")
    (if !is_reusable_workflow && !hasKeyStr kvs ("runs-on")
      then [Issue.jobMissingRunsOn path job_name] else []) ++
    (if !is_reusable_workflow && !hasKeyStr kvs ("steps")
      then [Issue.jobMissingSteps path job_name] else [])
  | _ => []

/-- The jobs loop, iterating the entries of the `jobs` mapping in order. -/
def jobsSectionIssues (path : String) : List (YKey × Yaml) → List Issue
  | [] => []
  | (job_name, job_config) :: rest =>
      jobIssues path job_name job_config ++ jobsSectionIssues path rest

/-- The guarded jobs section: runs only when `jobs` is present and its value
is a dict. -/
def jobsIssuesOf (kvs : List (YKey × Yaml)) (path : String) : List Issue :=
  match lookupKey kvs ("jobs") with
  | some (.map jobs) => jobsSectionIssues path jobs
  | _ => []

/-- WorkflowValidator.validate_workflow_structure: required top-level fields,
boolean-key detection, then the jobs checks; each stage appends its issues in
order and any Python exception aborts the method at the point it is raised,
leaving the issues appended so far. -/
def validate_workflow_structure (data : Yaml) (file_path : String)
    (issues : List Issue) : (Except PyError Bool) × List Issue :=
  match missingFieldsList data required_fields with
  | .error e => (.error e, issues)
  | .ok missing =>
    let issues1 := if missing.isEmpty then issues
      else issues ++ [Issue.missingFields file_path missing]
    let valid1 := missing.isEmpty
    match pyKeys data with
    | .error e => (.error e, issues1)
    | .ok keys =>
      let boolIss := boolKeyIssues file_path keys
      let issues2 := issues1 ++ boolIss
      let valid2 := valid1 && boolIss.isEmpty
      match data with
      | .map kvs =>
        let jIss := jobsIssuesOf kvs file_path
        (.ok (valid2 && jIss.isEmpty), issues2 ++ jIss)
      | _ => (.ok valid2, issues2)

/-! ## Response sanitizer -/

def fenceYaml3 : List Char := String.toList ("```yaml")
def fenceYaml4 : List Char := String.toList ("````yaml")
def fence3 : List Char := String.toList ("```")
def fence4 : List Char := String.toList ("````")

/-- The predicate of the top-down scan for the opening fence: the line is
stripped, then tested against the tagged and untagged fence markers (all four
tests select the same lines, since a tagged marker starts with the untagged
one, and both branches of the Python if/elif perform the same action). -/
def isFenceStart (line : List Char) : Bool :=
  listStartsWith fenceYaml3 (pyStrip line) || listStartsWith fenceYaml4 (pyStrip line) ||
  (listStartsWith fence3 (pyStrip line) || listStartsWith fence4 (pyStrip line))

/-- The predicate of the bottom-up scan for the closing fence. -/
def isFenceEnd (line : List Char) : Bool :=
  listStartsWith fence3 (pyStrip line) || listStartsWith fence4 (pyStrip line)

/-- WorkflowValidator.clean_ai_response: strip the response, split into lines,
find the first fence line scanning down and the last fence line scanning up,
join the lines strictly between them, and strip the result.  Without fences
the indices default to the whole line range. -/
def clean_ai_response (ai_response : List Char) : List Char :=
  if ai_response = [] then []
  else
    let lines := splitChar '\n' (pyStrip ai_response)
    let start_idx :=
      match findIdxP isFenceStart lines with
      | some i => i + 1
      | none => 0
    let end_idx :=
      match findIdxP isFenceEnd lines.reverse with
      | some j => lines.length - 1 - j
      | none => lines.length
    pyStrip (joinChar '\n' ((lines.take end_idx).drop start_idx))

/-! ## AI prompts and calls -/

/-- Python slice `s[:n]`. -/
def pyTake (n : Nat) (s : String) : String := String.mk (s.toList.take n)

def analysis_prompt (file_path file_content : String) : String :=
  "You are a GitHub Actions workflow expert. Analyze this workflow file and identify issues:\n\nFile: "
  ++ file_path ++ "\nContent:\n```yaml\n" ++ pyTake 2000 file_content
  ++ "  # Limit content for prompt\n```\n\nCommon issues to check:\n1. YAML syntax errors\n2. Missing required fields: name, on, jobs\n3. Boolean \x27on\x27 key (should be quoted as \"on\")\n4. Missing \x27runs-on\x27 in jobs\n5. Missing \x27steps\x27 in jobs\n6. Indentation issues\n7. Invalid trigger configurations\n\nProvide a concise analysis and specific fixes needed:"

/-- WorkflowValidator.ai_analyze_workflow, with the remote completion reduced
to the `Env.complete` oracle. -/
def ai_analyze_workflow (env : Env) (file_path file_content : String) : String :=
  env.complete (analysis_prompt file_path file_content) 300

def fix_prompt (file_content : String) (issues : List Issue) : String :=
  let issues_text := String.intercalate "\n" (issues.map (fun i => "- " ++ renderIssue i))
  "Fix this GitHub Actions workflow YAML. The following issues were detected:\n\nIssues to fix:\n"
  ++ issues_text ++ "\n\nOriginal YAML:\n```yaml\n" ++ pyTake 1500 file_content
  ++ "  # Limit for prompt\n```\n\nProvide the corrected YAML with proper syntax and structure. Focus on:\n1. Quoting \x27on\x27 key if it\x27s being parsed as boolean\n2. Ensuring proper indentation\n3. Adding missing required fields\n4. Fixing job structure\n\nReturn only the corrected YAML:"

/-- WorkflowValidator.ai_fix_workflow. -/
def ai_fix_workflow (env : Env) (file_content : String) (issues : List Issue) : String :=
  env.complete (fix_prompt file_content issues) 800

/-! ## File validation -/

/-- Placeholder for the message text of a file-read exception. -/
def file_read_error_details : String := "unreadable"

/-- Embeds the YAML-syntax validation method of WorkflowValidator: open the
file, run the YAML parser, catch YAMLError separately from any other
exception.  Failure is reported through the returned flag (with the Python
None as the null document) plus one appended issue; no exception escapes. -/
def validate_yaml_load (env : Env) (fs : FS) (issues : List Issue)
    (file_path : String) : (Bool × Yaml) × List Issue :=
  match fs file_path with
  | none => ((false, .null), issues ++ [Issue.fileError file_path file_read_error_details])
  | some content =>
    match env.parse content with
    | .ok v => ((true, v), issues)
    | .yamlError d => ((false, .null), issues ++ [Issue.yamlSyntaxError file_path d])
    | .readError d => ((false, .null), issues ++ [Issue.fileError file_path d])

/-- The backup-and-write block shared by both repair branches of
validate_file: rename the original to `<path>.backup` unless that backup
already exists, then write the new content to the original path.
`os.rename` on a missing original raises. -/
def repairWrite (fs : FS) (file_path content : String) : Except PyError FS :=
  let backup_path := file_path ++ (".backup")
  match fs backup_path with
  | some _ => .ok (fsWrite fs file_path content)
  | none =>
    match fs file_path with
    | none => .error (.fileNotFound file_path)
    | some _ => .ok (fsWrite (fsRename fs file_path backup_path) file_path content)

/-- Python slice `l[-n:]`. -/
def pyLastN (n : Nat) (l : List Issue) : List Issue := l.drop (l.length - n)

/-- Result of one validate_file invocation: the returned value or the raised
exception, the file system and issue sequence afterwards, the auto_fix flags
of the re-validation calls performed, and the repair writes performed. -/
structure VFOut where
  result : Except PyError Bool
  fs : FS
  issues : List Issue
  revals : List Bool
  writes : List (String × String)

/-- WorkflowValidator.validate_file specialized to auto_fix = False.  This is
the exact form invoked by the recursive re-validation call, which passes
auto_fix=False and therefore never repairs or recurses again. -/
def validate_file_aux (env : Env) (fs : FS) (issues : List Issue)
    (file_path : String) : VFOut :=
  match fs file_path with
  | none =>
    ⟨.ok false, fs, issues ++ [Issue.cannotRead file_path file_read_error_details], [], []⟩
  | some _content =>
    let r := validate_yaml_load env fs issues file_path
    let is_valid_yaml := r.1.1
    let data := r.1.2
    let issues1 := r.2
    if is_valid_yaml then
      let s := validate_workflow_structure data file_path issues1
      match s.1 with
      | .error e => ⟨.error e, fs, s.2, [], []⟩
      | .ok is_valid_structure =>
        ⟨.ok (is_valid_yaml && is_valid_structure), fs, s.2, [], []⟩
    else
      ⟨.ok false, fs, issues1, [], []⟩

/-- WorkflowValidator.validate_file.  The auto_fix=False case is
validate_file_aux; the auto_fix=True case may repair a syntax failure (then
re-validate once with auto_fix=False) or a structure failure (then return
True immediately without re-validating).  In either repair branch an
empty sanitized response leaves the backup-path local variable unassigned
while the success message still references it, raising UnboundLocalError. -/
def validate_file (env : Env) (fs : FS) (issues : List Issue) (file_path : String) :
    (auto_fix : Bool) → VFOut
  | false => validate_file_aux env fs issues file_path
  | true =>
    match fs file_path with
    | none =>
      ⟨.ok false, fs, issues ++ [Issue.cannotRead file_path file_read_error_details], [], []⟩
    | some content =>
      let r := validate_yaml_load env fs issues file_path
      let is_valid_yaml := r.1.1
      let data := r.1.2
      let issues1 := r.2
      if is_valid_yaml then
        let s := validate_workflow_structure data file_path issues1
        match s.1 with
        | .error e => ⟨.error e, fs, s.2, [], []⟩
        | .ok is_valid_structure =>
          if is_valid_structure then ⟨.ok true, fs, s.2, [], []⟩
          else
            let ai_fix := ai_fix_workflow env content (pyLastN 3 s.2)
            if ai_fix = "" then ⟨.ok false, fs, s.2, [], []⟩
            else
              let cleaned_fix := clean_ai_response ai_fix.toList
              if cleaned_fix = [] then
                ⟨.error (.unboundLocal ("backup_path")), fs, s.2, [], []⟩
              else
                match repairWrite fs file_path (String.mk cleaned_fix) with
                | .error e => ⟨.error e, fs, s.2, [], []⟩
                | .ok fs1 =>
                  ⟨.ok true, fs1, s.2, [], [(file_path, String.mk cleaned_fix)]⟩
      else
        let _ai_analysis := ai_analyze_workflow env file_path content
        let fixed_content := ai_fix_workflow env content (pyLastN 1 issues1)
        if fixed_content = "" then ⟨.ok false, fs, issues1, [], []⟩
        else
          let cleaned_content := clean_ai_response fixed_content.toList
          if cleaned_content = [] then
            ⟨.error (.unboundLocal ("backup_path")), fs, issues1, [], []⟩
          else
            match repairWrite fs file_path (String.mk cleaned_content) with
            | .error e => ⟨.error e, fs, issues1, [], []⟩
            | .ok fs1 =>
              let sub := validate_file_aux env fs1 issues1 file_path
              ⟨sub.result, sub.fs, sub.issues, false :: sub.revals,
                (file_path, String.mk cleaned_content) :: sub.writes⟩

/-! ## Directory validation, report, and driver -/

structure VDOut where
  result : Except PyError Bool
  fs : FS
  issues : List Issue

/-- The per-file loop of validate_directory. -/
def validate_files_loop (env : Env) (auto_fix : Bool) :
    List String → FS → List Issue → Bool → VDOut
  | [], fs, issues, all_valid => ⟨.ok all_valid, fs, issues⟩
  | p :: ps, fs, issues, all_valid =>
    let o := validate_file env fs issues p auto_fix
    match o.result with
    | .error e => ⟨.error e, o.fs, o.issues⟩
    | .ok b => validate_files_loop env auto_fix ps o.fs o.issues (all_valid && b)

/-- WorkflowValidator.validate_directory: missing directory returns False
without an issue; no matching workflow files returns True; otherwise every
file is validated sequentially. -/
def validate_directory (env : Env) (fs : FS) (issues : List Issue)
    (directory : String) (auto_fix : Bool) : VDOut :=
  match env.dirFiles directory with
  | none => ⟨.ok false, fs, issues⟩
  | some [] => ⟨.ok true, fs, issues⟩
  | some (f :: rest) => validate_files_loop env auto_fix (f :: rest) fs issues true

structure ValidationReport where
  total_issues : Nat
  issues : List String
  status : String
deriving DecidableEq

/-- WorkflowValidator.get_report: derived purely from the issue sequence. -/
def get_report (issues_found : List Issue) : ValidationReport :=
  { total_issues := issues_found.length
  , issues := issues_found.map renderIssue
  , status := if issues_found.length = 0 then ("passed") else ("failed") }

def jsonStr (s : String) : String := "\x22" ++ s ++ "\x22"

/-- Serialization of the report for the optional output file. -/
def renderReport (r : ValidationReport) : String :=
  "\x7b" ++ jsonStr ("total_issues") ++ ": " ++ toString r.total_issues ++ ", "
  ++ jsonStr ("issues") ++ ": [" ++ String.intercalate ", " (r.issues.map jsonStr) ++ "], "
  ++ jsonStr ("status") ++ ": " ++ jsonStr r.status ++ "\x7d"

structure Args where
  path : String
  auto_fix : Bool
  api_key : Option String
  output : Option String

/-- Python string `or`, as used for the api-key fallback: an empty string is
falsy and falls through to the second operand. -/
def pyOrStr (a b : Option String) : Option String :=
  match a with
  | some s => if s = "" then b else some s
  | none => b

/-- Python truthiness of an optional string. -/
def strTruthy : Option String → Bool
  | none => false
  | some s => s != ""

structure MainOut where
  code : Except PyError Nat
  fs : FS
  issues : List Issue

/-- The tail of main after validation: propagate an exception, otherwise emit
the report, optionally write it out, and exit 1 or 0 on the issue count. -/
def mainFinish (args : Args) (vd : VDOut) : MainOut :=
  match vd.result with
  | .error e => ⟨.error e, vd.fs, vd.issues⟩
  | .ok _success =>
    let report := get_report vd.issues
    let fs2 :=
      match args.output with
      | some out => fsWrite vd.fs out (renderReport report)
      | none => vd.fs
    if report.total_issues > 0 then ⟨.ok 1, fs2, vd.issues⟩
    else ⟨.ok 0, fs2, vd.issues⟩

/-- The main driver: api-key resolution with the environment fallback, then
dispatch on the path being a file or a directory (a fresh validator starts
with an empty issue sequence), then report and exit code. -/
def main_model (env : Env) (fs : FS) (args : Args)
    (env_api_key : Option String) : MainOut :=
  let api_key := pyOrStr args.api_key env_api_key
  if strTruthy api_key = false then ⟨.ok 1, fs, []⟩
  else if (fs args.path).isSome then
    let o := validate_file env fs [] args.path args.auto_fix
    mainFinish args ⟨o.result, o.fs, o.issues⟩
  else if (env.dirFiles args.path).isSome then
    mainFinish args (validate_directory env fs [] args.path args.auto_fix)
  else ⟨.ok 1, fs, []⟩

/-! ## Structural lemmas -/

/-- Recognizer for the missing-required-fields kind of issue. -/
def isMissingFieldsIssue : Issue → Bool
  | .missingFields _ _ => true
  | _ => false

theorem missingFieldsList_map (kvs : List (YKey × Yaml)) (fields : List String) :
    missingFieldsList (.map kvs) fields
      = .ok (fields.filter (fun f => !hasKeyStr kvs f)) := by
  induction fields with
  | nil => rfl
  | cons f rest ih =>
    by_cases h : hasKeyStr kvs f <;>
      simp [missingFieldsList, pyContains, ih, List.filter_cons, h]

theorem boolKeyIssues_shape (path : String) (ks : List YKey) :
    ∀ i ∈ boolKeyIssues path ks, isMissingFieldsIssue i = false := by
  induction ks with
  | nil => simp [boolKeyIssues]
  | cons k ks ih =>
    intro i hi
    cases k with
    | str s => exact ih i (by simpa [boolKeyIssues] using hi)
    | bool b =>
      simp only [boolKeyIssues, List.mem_cons] at hi
      rcases hi with h | h
      · subst h; rfl
      · exact ih i h

theorem jobIssues_shape (path : String) (job : YKey) (c : Yaml) :
    ∀ i ∈ jobIssues path job c, isMissingFieldsIssue i = false := by
  intro i hi
  cases c with
  | map kvs =>
    simp only [jobIssues, List.mem_append] at hi
    rcases hi with h | h
    · split at h
      · simp only [List.mem_singleton] at h; subst h; rfl
      · simp at h
    · split at h
      · simp only [List.mem_singleton] at h; subst h; rfl
      · simp at h
  | null => simp [jobIssues] at hi
  | bool b => simp [jobIssues] at hi
  | int n => simp [jobIssues] at hi
  | str s => simp [jobIssues] at hi
  | seq xs => simp [jobIssues] at hi

theorem jobsSectionIssues_shape (path : String) (jobs : List (YKey × Yaml)) :
    ∀ i ∈ jobsSectionIssues path jobs, isMissingFieldsIssue i = false := by
  induction jobs with
  | nil => simp [jobsSectionIssues]
  | cons e rest ih =>
    intro i hi
    obtain ⟨n, c⟩ := e
    simp only [jobsSectionIssues, List.mem_append] at hi
    rcases hi with h | h
    · exact jobIssues_shape path n c i h
    · exact ih i h

theorem jobsIssuesOf_shape (kvs : List (YKey × Yaml)) (path : String) :
    ∀ i ∈ jobsIssuesOf kvs path, isMissingFieldsIssue i = false := by
  intro i hi
  unfold jobsIssuesOf at hi
  split at hi
  · next jobs _ => exact jobsSectionIssues_shape path jobs i hi
  · simp at hi

/-! ## Claim C2 -/

/-- C2: for every parsed document that is a mapping and is missing at least
one of the required top-level keys name, on, jobs, the structure check
returns false and the newly appended issues contain exactly one
missing-fields issue, and that single issue names all of the missing keys. -/
theorem missing_required_fields_single_issue
    (kvs : List (YKey × Yaml)) (file_path : String) (issues : List Issue)
    (hmiss : required_fields.filter (fun f => !hasKeyStr kvs f) ≠ []) :
    ∃ rest,
      validate_workflow_structure (.map kvs) file_path issues
        = (.ok false,
           issues ++ [Issue.missingFields file_path
              (required_fields.filter (fun f => !hasKeyStr kvs f))] ++ rest) ∧
      ∀ i ∈ rest, isMissingFieldsIssue i = false := by
  refine ⟨boolKeyIssues file_path (kvs.map Prod.fst) ++ jobsIssuesOf kvs file_path,
    ?_, ?_⟩
  · have hm := missingFieldsList_map kvs required_fields
    have hne : (required_fields.filter (fun f => !hasKeyStr kvs f)).isEmpty = false := by
      rcases h : required_fields.filter (fun f => !hasKeyStr kvs f) with _ | ⟨a, t⟩
      · exact absurd h hmiss
      · rfl
    simp [validate_workflow_structure, hm, hne, pyKeys]
  · intro i hi
    rcases List.mem_append.mp hi with h | h
    · exact boolKeyIssues_shape file_path _ i h
    · exact jobsIssuesOf_shape kvs file_path i h

/-- C2 witness: a document given as the empty mapping misses all three
required keys and produces the single missing-fields issue naming them. -/
theorem missing_required_fields_single_issue_witness :
    (required_fields.filter (fun f => !hasKeyStr ([] : List (YKey × Yaml)) f) ≠ []) ∧
    ∃ rest,
      validate_workflow_structure (.map []) ("wf.yml") []
        = (.ok false,
           [] ++ [Issue.missingFields ("wf.yml")
              (required_fields.filter (fun f => !hasKeyStr ([] : List (YKey × Yaml)) f))]
             ++ rest) ∧
      ∀ i ∈ rest, isMissingFieldsIssue i = false :=
  ⟨by decide, missing_required_fields_single_issue [] ("wf.yml") [] (by decide)⟩

/-! ## Claim C3 -/

/-- C3: under the jobs mapping, an entry whose value is a mapping with a
`uses` key contributes no issue even without runs-on and steps; an entry
whose value is a mapping without `uses` contributes one distinct issue naming
the job for each of runs-on and steps that is absent (two when both are
absent, none when both are present); and an entry whose value is not a
mapping contributes no issue at all. -/
theorem job_entry_issue_contribution (path : String) (job : YKey) :
    (∀ kvs, hasKeyStr kvs ("uses") = true → jobIssues path job (.map kvs) = [])
    ∧ (∀ kvs, hasKeyStr kvs ("uses") = false →
        hasKeyStr kvs ("runs-on") = false → hasKeyStr kvs ("steps") = false →
        jobIssues path job (.map kvs)
          = [Issue.jobMissingRunsOn path job, Issue.jobMissingSteps path job])
    ∧ (∀ kvs, hasKeyStr kvs ("uses") = false →
        hasKeyStr kvs ("runs-on") = true → hasKeyStr kvs ("steps") = false →
        jobIssues path job (.map kvs) = [Issue.jobMissingSteps path job])
    ∧ (∀ kvs, hasKeyStr kvs ("uses") = false →
        hasKeyStr kvs ("runs-on") = false → hasKeyStr kvs ("steps") = true →
        jobIssues path job (.map kvs) = [Issue.jobMissingRunsOn path job])
    ∧ (∀ kvs, hasKeyStr kvs ("uses") = false →
        hasKeyStr kvs ("runs-on") = true → hasKeyStr kvs ("steps") = true →
        jobIssues path job (.map kvs) = [])
    ∧ Issue.jobMissingRunsOn path job ≠ Issue.jobMissingSteps path job
    ∧ jobIssues path job .null = []
    ∧ (∀ b, jobIssues path job (.bool b) = [])
    ∧ (∀ n, jobIssues path job (.int n) = [])
    ∧ (∀ s, jobIssues path job (.str s) = [])
    ∧ (∀ xs, jobIssues path job (.seq xs) = []) := by
  refine ⟨?_, ?_, ?_, ?_, ?_, ?_, ?_, ?_, ?_, ?_, ?_⟩
  · intro kvs h; simp [jobIssues, h]
  · intro kvs h h₁ h₂; simp [jobIssues, h, h₁, h₂]
  · intro kvs h h₁ h₂; simp [jobIssues, h, h₁, h₂]
  · intro kvs h h₁ h₂; simp [jobIssues, h, h₁, h₂]
  · intro kvs h h₁ h₂; simp [jobIssues, h, h₁, h₂]
  · intro h; cases h
  · rfl
  · intro b; rfl
  · intro n; rfl
  · intro s; rfl
  · intro xs; rfl

/-- C3 witness: a job with neither uses nor runs-on nor steps yields exactly
the two issues naming it; concretely with an empty job mapping. -/
theorem job_entry_issue_contribution_witness :
    hasKeyStr ([] : List (YKey × Yaml)) ("uses") = false ∧
    jobIssues ("wf.yml") (.str ("build")) (.map [])
      = [Issue.jobMissingRunsOn ("wf.yml") (.str ("build")),
         Issue.jobMissingSteps ("wf.yml") (.str ("build"))] :=
  ⟨by decide,
    (job_entry_issue_contribution ("wf.yml") (.str ("build"))).2.1 []
      (by decide) (by decide) (by decide)⟩

/-! ## Claim C8 -/

/-- C8: the YAML-loading step never raises to its caller; it returns the
false flag with the null document plus exactly one appended issue of the
syntax-error form on a parse failure, one of the file-error form when the
file cannot be read, and the true flag with the parsed document and no new
issue on success. -/
theorem validate_yaml_load_total_cases
    (env : Env) (fs : FS) (issues : List Issue) (file_path : String) :
    (fs file_path = none →
      validate_yaml_load env fs issues file_path
        = ((false, .null),
           issues ++ [Issue.fileError file_path file_read_error_details]))
    ∧ (∀ content d, fs file_path = some content → env.parse content = .yamlError d →
      validate_yaml_load env fs issues file_path
        = ((false, .null), issues ++ [Issue.yamlSyntaxError file_path d]))
    ∧ (∀ content d, fs file_path = some content → env.parse content = .readError d →
      validate_yaml_load env fs issues file_path
        = ((false, .null), issues ++ [Issue.fileError file_path d]))
    ∧ (∀ content v, fs file_path = some content → env.parse content = .ok v →
      validate_yaml_load env fs issues file_path = ((true, v), issues)) := by
  refine ⟨?_, ?_, ?_, ?_⟩
  · intro h; simp [validate_yaml_load, h]
  · intro content d h hp; simp [validate_yaml_load, h, hp]
  · intro content d h hp; simp [validate_yaml_load, h, hp]
  · intro content v h hp; simp [validate_yaml_load, h, hp]

/-- C8 witness: a concrete file whose content fails to parse yields the
false flag, the null document and the one syntax-error issue. -/
theorem validate_yaml_load_total_cases_witness :
    validate_yaml_load
      ⟨fun _ => .yamlError ("mapping values are not allowed here"),
       fun _ _ => "", fun _ => none⟩
      (fun p => if p = ("wf.yml") then some ("on: [") else none)
      [] ("wf.yml")
      = ((false, .null),
         [Issue.yamlSyntaxError ("wf.yml") ("mapping values are not allowed here")]) :=
  (validate_yaml_load_total_cases
      ⟨fun _ => .yamlError ("mapping values are not allowed here"),
       fun _ _ => "", fun _ => none⟩
      (fun p => if p = ("wf.yml") then some ("on: [") else none)
      [] ("wf.yml")).2.1 ("on: [") ("mapping values are not allowed here")
    (by simp) rfl

/-! ## Claim C5 -/

theorem backup_path_ne (p : String) : p ≠ p ++ (".backup") := by
  intro h
  have hl := congrArg String.length h
  rw [String.length_append] at hl
  have h7 : (".backup" : String).length = 7 := rfl
  omega

/-- C5: the repair-and-write step creates the backup by renaming the original
only when no file exists at the backup path; run a second time on the same
path it writes the new content to the original path but leaves the content of
the existing backup unchanged. -/
theorem repairWrite_backup_idempotent (fs : FS) (p c₁ c₂ orig : String)
    (hp : fs p = some orig) :
    (fs (p ++ (".backup")) = none →
      ∃ fs₁, repairWrite fs p c₁ = .ok fs₁
        ∧ fs₁ (p ++ (".backup")) = some orig
        ∧ fs₁ p = some c₁
        ∧ (∃ fs₂, repairWrite fs₁ p c₂ = .ok fs₂
            ∧ fs₂ (p ++ (".backup")) = some orig
            ∧ fs₂ p = some c₂))
    ∧ (∀ bc, fs (p ++ (".backup")) = some bc →
      ∃ fs₃, repairWrite fs p c₁ = .ok fs₃
        ∧ fs₃ (p ++ (".backup")) = some bc
        ∧ fs₃ p = some c₁) := by
  have hne : (p ++ (".backup")) ≠ p := fun h => backup_path_ne p h.symm
  constructor
  · intro hb
    refine ⟨fsWrite (fsRename fs p (p ++ (".backup"))) p c₁, ?_, ?_, ?_, ?_⟩
    · simp [repairWrite, hb, hp]
    · simp [fsWrite, fsRename, hne, hp]
    · simp [fsWrite]
    · refine ⟨fsWrite (fsWrite (fsRename fs p (p ++ (".backup"))) p c₁) p c₂, ?_, ?_, ?_⟩
      · simp [repairWrite, fsWrite, fsRename, hne, hp]
      · simp [fsWrite, fsRename, hne, hp]
      · simp [fsWrite]
  · intro bc hb
    refine ⟨fsWrite fs p c₁, ?_, ?_, ?_⟩
    · simp [repairWrite, hb]
    · simp [fsWrite, hne, hb]
    · simp [fsWrite]

/-- C5 witness: a concrete one-file system, repaired twice; the backup keeps
the original content after the second write. -/
theorem repairWrite_backup_idempotent_witness :
    ((fun q => if q = ("wf.yml") then some ("orig") else none) : FS) ("wf.yml")
        = some ("orig")
    ∧ ∃ fs₁,
        repairWrite (fun q => if q = ("wf.yml") then some ("orig") else none)
          ("wf.yml") ("c1") = .ok fs₁
        ∧ fs₁ ("wf.yml" ++ (".backup")) = some ("orig")
        ∧ fs₁ ("wf.yml") = some ("c1")
        ∧ (∃ fs₂, repairWrite fs₁ ("wf.yml") ("c2") = .ok fs₂
            ∧ fs₂ ("wf.yml" ++ (".backup")) = some ("orig")
            ∧ fs₂ ("wf.yml") = some ("c2")) :=
  ⟨by decide,
    (repairWrite_backup_idempotent
        (fun q => if q = ("wf.yml") then some ("orig") else none)
        ("wf.yml") ("c1") ("c2") ("orig") (by decide)).1 (by decide)⟩

/-! ## Claim C6 -/

/-- An environment whose parser returns the null document, as `yaml.safe_load`
does for an empty file. -/
def envNullDoc : Env := ⟨fun _ => .ok .null, fun _ _ => "", fun _ => none⟩

def fsEmptyFile : FS := fun p => if p = ("empty.yml") then some ("") else none

/-- C6 failing input: validating an empty file, whose content parses to the
null document, raises a TypeError out of validate_file (from the membership
test on None in the structure check) instead of recording an issue. -/
theorem empty_file_typeerror_escapes :
    (validate_file envNullDoc fsEmptyFile [] ("empty.yml") false).result
      = .error (.typeError ("argument of type \x27NoneType\x27 is not iterable"))
    ∧ (main_model envNullDoc fsEmptyFile
         ⟨("empty.yml"), false, some ("key"), none⟩ none).code
      = .error (.typeError ("argument of type \x27NoneType\x27 is not iterable")) := by
  constructor <;> rfl

/-! ## Claim C10 -/

/-- C10: with repair enabled, after a syntax failure, when the completion is
a non-empty string whose sanitized form is empty, validate_file raises
UnboundLocalError for backup_path instead of returning false: the variable is
assigned only under the non-empty-sanitized guard yet is referenced by the
success message outside that guard. -/
theorem unbound_backup_path_on_empty_sanitized
    (env : Env) (fs : FS) (issues : List Issue) (file_path content d : String)
    (hread : fs file_path = some content)
    (hparse : env.parse content = .yamlError d)
    (hfix : ai_fix_workflow env content
        (pyLastN 1 (issues ++ [Issue.yamlSyntaxError file_path d])) ≠ "")
    (hclean : clean_ai_response (ai_fix_workflow env content
        (pyLastN 1 (issues ++ [Issue.yamlSyntaxError file_path d]))).toList = []) :
    (validate_file env fs issues file_path true).result
      = .error (.unboundLocal ("backup_path")) := by
  simp only [validate_file, hread, validate_yaml_load, hparse]
  simp only [String.toList] at hclean
  simp [hfix, hclean]

/-- Environment for the C10 witness: the completion always returns a lone
fence-marker line, which sanitizes to the empty string. -/
def envFenceOnly : Env :=
  ⟨fun _ => .yamlError ("bad"), fun _ _ => "```", fun _ => none⟩

def fsOneBad : FS := fun p => if p = ("wf.yml") then some ("on: [") else none

/-- C10 witness: the concrete run raises the unbound-local error. -/
theorem unbound_backup_path_on_empty_sanitized_witness :
    (validate_file envFenceOnly fsOneBad [] ("wf.yml") true).result
      = .error (.unboundLocal ("backup_path")) :=
  unbound_backup_path_on_empty_sanitized envFenceOnly fsOneBad [] ("wf.yml")
    ("on: [") ("bad") (by decide) rfl (by decide) (by decide)

/-! ## Claim C1 -/

theorem validate_file_aux_no_reval (env : Env) (fs : FS) (issues : List Issue)
    (p : String) :
    (validate_file_aux env fs issues p).revals = []
    ∧ (validate_file_aux env fs issues p).writes = [] := by
  cases h : fs p with
  | none => simp [validate_file_aux, h]
  | some c =>
    simp only [validate_file_aux, h]
    constructor
    · split
      · split <;> rfl
      · rfl
    · split
      · split <;> rfl
      · rfl

theorem validate_file_true_reval_cases (env : Env) (fs : FS) (issues : List Issue)
    (p : String) :
    (validate_file env fs issues p true).revals = []
    ∨ (validate_file env fs issues p true).revals = [false] := by
  cases h : fs p with
  | none => left; simp [validate_file, h]
  | some c =>
    simp only [validate_file, h]
    split
    · split
      · left; rfl
      · split
        · left; rfl
        · split
          · left; rfl
          · split
            · left; rfl
            · split
              · left; rfl
              · left; rfl
    · split
      · left; rfl
      · split
        · left; rfl
        · split
          · left; rfl
          · right
            simp [(validate_file_aux_no_reval env _ _ p).1]

theorem repairWrite_ok_of_read (fs : FS) (p c orig : String) (hp : fs p = some orig) :
    ∃ fs₁, repairWrite fs p c = .ok fs₁ := by
  unfold repairWrite
  cases hb : fs (p ++ (".backup")) with
  | some v => exact ⟨fsWrite fs p c, by simp [hb]⟩
  | none => exact ⟨fsWrite (fsRename fs p (p ++ (".backup"))) p c, by simp [hb, hp]⟩

/-- C1 (amended): every invocation of validate_file performs at most one
re-validation, and any re-validation it performs has repair disabled; when
repair is enabled and a syntax failure is repaired with a non-empty sanitized
response, exactly one such re-validation occurs and the sanitized content was
written; but a repaired structure failure writes the sanitized content and
performs no re-validation (validate_file returns true immediately), so the
original claim that a write always triggers exactly one re-validation fails. -/
theorem repair_revalidation_discipline (env : Env) (fs : FS) (issues : List Issue)
    (file_path : String) :
    (∀ af, (validate_file env fs issues file_path af).revals = []
      ∨ (validate_file env fs issues file_path af).revals = [false])
    ∧ (∀ content d, fs file_path = some content →
        env.parse content = .yamlError d →
        ai_fix_workflow env content
          (pyLastN 1 (issues ++ [Issue.yamlSyntaxError file_path d])) ≠ "" →
        clean_ai_response (ai_fix_workflow env content
          (pyLastN 1 (issues ++ [Issue.yamlSyntaxError file_path d]))).toList ≠ [] →
        (validate_file env fs issues file_path true).revals = [false]) := by
  constructor
  · intro af
    cases af with
    | false =>
      left
      exact (validate_file_aux_no_reval env fs issues file_path).1
    | true => exact validate_file_true_reval_cases env fs issues file_path
  · intro content d hread hparse hfix hclean
    simp only [validate_file, hread, validate_yaml_load, hparse]
    simp only [String.toList] at hclean
    rcases hrw : repairWrite fs file_path
        (String.mk (clean_ai_response (ai_fix_workflow env content
          (pyLastN 1 (issues ++ [Issue.yamlSyntaxError file_path d]))).data)) with e | fs1
    · obtain ⟨fs1, hok⟩ := repairWrite_ok_of_read fs file_path
        (String.mk (clean_ai_response (ai_fix_workflow env content
          (pyLastN 1 (issues ++ [Issue.yamlSyntaxError file_path d]))).data))
        content hread
      rw [hrw] at hok
      cases hok
    · simp [hfix, hclean, hrw, (validate_file_aux_no_reval env fs1 _ file_path).1]

/-- Environment for the C1 counterexample: parsing succeeds with an empty
mapping (a structure failure), and the completion returns a plain fixed
document. -/
def envStructFail : Env :=
  ⟨fun _ => .ok (.map []), fun _ _ => "fixed: yaml", fun _ => none⟩

def fsOneGood : FS := fun p => if p = ("wf.yml") then some ("x: 1") else none

/-- C1 counterexample: with repair enabled, a structure failure occurs and
sanitized repair content is written to the file, yet no re-validation at all
follows (the claim demands exactly one). -/
theorem repair_revalidation_counterexample :
    (validate_file envStructFail fsOneGood [] ("wf.yml") true).writes
        = [(("wf.yml"), ("fixed: yaml"))]
    ∧ (validate_file envStructFail fsOneGood [] ("wf.yml") true).issues ≠ []
    ∧ (validate_file envStructFail fsOneGood [] ("wf.yml") true).revals = [] := by
  refine ⟨?_, ?_, ?_⟩ <;> decide

/-- Environment for the C1 witness: a syntax failure repaired by a plain
fixed document. -/
def envSynFail : Env :=
  ⟨fun _ => .yamlError ("bad"), fun _ _ => "name: ci", fun _ => none⟩

/-- C1 witness: a repaired syntax failure re-validates exactly once, with
repair disabled. -/
theorem repair_revalidation_discipline_witness :
    (validate_file envSynFail fsOneGood [] ("wf.yml") true).revals = [false] :=
  (repair_revalidation_discipline envSynFail fsOneGood [] ("wf.yml")).2
    ("x: 1") ("bad") (by decide) rfl (by decide) (by decide)

/-! ## Claim C7 -/

theorem mainFinish_code (args : Args) (vd : VDOut) (c : Nat)
    (h : (mainFinish args vd).code = .ok c) :
    c = if (get_report (mainFinish args vd).issues).total_issues = 0
        then 0 else 1 := by
  rcases hr : vd.result with e | b
  · simp [mainFinish, hr] at h
  · simp only [mainFinish, hr] at h ⊢
    by_cases hz : (get_report vd.issues).total_issues > 0
    · rw [if_pos hz] at h
      simp only [Except.ok.injEq] at h
      simp only [if_pos hz, if_neg (by omega : ¬(get_report vd.issues).total_issues = 0)]
      omega
    · rw [if_neg hz] at h
      simp only [Except.ok.injEq] at h
      simp only [if_neg hz, if_pos (by omega : (get_report vd.issues).total_issues = 0)]
      omega

/-- C7: the exit code is 1 when no truthy api key comes from the flag or the
environment; it is 1 when the key is present but the path is neither an
existing file nor an existing directory; and whenever the run reaches an exit
code through the report, that code is 0 exactly when the final report shows
zero issues and 1 otherwise. -/
theorem exit_code_characterization (env : Env) (fs : FS) (args : Args)
    (env_api_key : Option String) :
    (strTruthy (pyOrStr args.api_key env_api_key) = false →
      (main_model env fs args env_api_key).code = .ok 1)
    ∧ (strTruthy (pyOrStr args.api_key env_api_key) = true →
        fs args.path = none → env.dirFiles args.path = none →
        (main_model env fs args env_api_key).code = .ok 1)
    ∧ (∀ c, strTruthy (pyOrStr args.api_key env_api_key) = true →
        (main_model env fs args env_api_key).code = .ok c →
        ((fs args.path).isSome = true ∨ (env.dirFiles args.path).isSome = true) →
        c = if (get_report (main_model env fs args env_api_key).issues).total_issues = 0
            then 0 else 1) := by
  refine ⟨?_, ?_, ?_⟩
  · intro h
    simp [main_model, h]
  · intro h hf hd
    simp [main_model, h, hf, hd]
  · intro c hkey hcode hpath
    rcases hf : (fs args.path).isSome with _ | _
    · rcases hd : (env.dirFiles args.path).isSome with _ | _
      · rcases hpath with h | h
        · rw [hf] at h; cases h
        · rw [hd] at h; cases h
      · simp only [main_model, hkey, Bool.true_eq_false, if_false, hf, hd, if_true] at hcode ⊢
        exact mainFinish_code args _ c hcode
    · simp only [main_model, hkey, Bool.true_eq_false, if_false, hf, if_true] at hcode ⊢
      exact mainFinish_code args _ c hcode

/-- C7 witness: with no api key anywhere the exit code is 1; and a concrete
successful run over a directory with no workflow files exits 0 with an empty
report. -/
theorem exit_code_characterization_witness :
    (main_model envNullDoc (fun _ => none)
        ⟨("p"), false, none, none⟩ none).code = .ok 1
    ∧ (main_model
        ⟨fun _ => .ok .null, fun _ _ => "", fun d => if d = ("wfdir") then some [] else none⟩
        (fun _ => none) ⟨("wfdir"), false, some ("key"), none⟩ none).code = .ok 0 :=
  ⟨(exit_code_characterization envNullDoc (fun _ => none)
      ⟨("p"), false, none, none⟩ none).1 (by decide),
   rfl⟩

/-! ## Claim C9 -/

/-- The issue sequence after an operation extends the sequence before it. -/
def ExtendsIssues (old new : List Issue) : Prop := ∃ d, new = old ++ d

theorem extends_refl {a : List Issue} : ExtendsIssues a a := ⟨[], by simp⟩

theorem extends_trans {a b c : List Issue}
    (h₁ : ExtendsIssues a b) (h₂ : ExtendsIssues b c) : ExtendsIssues a c := by
  obtain ⟨d₁, rfl⟩ := h₁
  obtain ⟨d₂, rfl⟩ := h₂
  exact ⟨d₁ ++ d₂, by simp⟩

theorem validate_yaml_load_issues_mono (env : Env) (fs : FS) (issues : List Issue)
    (p : String) : ExtendsIssues issues (validate_yaml_load env fs issues p).2 := by
  cases h : fs p with
  | none =>
    exact ⟨[Issue.fileError p file_read_error_details], by simp [validate_yaml_load, h]⟩
  | some content =>
    cases hp : env.parse content with
    | ok v => exact ⟨[], by simp [validate_yaml_load, h, hp]⟩
    | yamlError d2 =>
      exact ⟨[Issue.yamlSyntaxError p d2], by simp [validate_yaml_load, h, hp]⟩
    | readError d2 =>
      exact ⟨[Issue.fileError p d2], by simp [validate_yaml_load, h, hp]⟩

theorem validate_workflow_structure_issues_mono (data : Yaml) (path : String)
    (issues : List Issue) :
    ExtendsIssues issues (validate_workflow_structure data path issues).2 := by
  cases hm : missingFieldsList data required_fields with
  | error e => exact ⟨[], by simp [validate_workflow_structure, hm]⟩
  | ok missing =>
    by_cases hmiss : missing.isEmpty
    · cases hk : pyKeys data with
      | error e => exact ⟨[], by simp [validate_workflow_structure, hm, hk, hmiss]⟩
      | ok keys =>
        cases data with
        | map kvs =>
          exact ⟨boolKeyIssues path keys ++ jobsIssuesOf kvs path,
            by simp [validate_workflow_structure, hm, hk, hmiss]⟩
        | null => exact ⟨boolKeyIssues path keys,
            by simp [validate_workflow_structure, hm, hk, hmiss]⟩
        | bool b => exact ⟨boolKeyIssues path keys,
            by simp [validate_workflow_structure, hm, hk, hmiss]⟩
        | int n => exact ⟨boolKeyIssues path keys,
            by simp [validate_workflow_structure, hm, hk, hmiss]⟩
        | str s => exact ⟨boolKeyIssues path keys,
            by simp [validate_workflow_structure, hm, hk, hmiss]⟩
        | seq xs => exact ⟨boolKeyIssues path keys,
            by simp [validate_workflow_structure, hm, hk, hmiss]⟩
    · cases hk : pyKeys data with
      | error e =>
        exact ⟨[Issue.missingFields path missing],
          by simp [validate_workflow_structure, hm, hk, hmiss]⟩
      | ok keys =>
        cases data with
        | map kvs =>
          exact ⟨[Issue.missingFields path missing] ++ boolKeyIssues path keys
              ++ jobsIssuesOf kvs path,
            by simp [validate_workflow_structure, hm, hk, hmiss]⟩
        | null => exact ⟨[Issue.missingFields path missing] ++ boolKeyIssues path keys,
            by simp [validate_workflow_structure, hm, hk, hmiss]⟩
        | bool b => exact ⟨[Issue.missingFields path missing] ++ boolKeyIssues path keys,
            by simp [validate_workflow_structure, hm, hk, hmiss]⟩
        | int n => exact ⟨[Issue.missingFields path missing] ++ boolKeyIssues path keys,
            by simp [validate_workflow_structure, hm, hk, hmiss]⟩
        | str s => exact ⟨[Issue.missingFields path missing] ++ boolKeyIssues path keys,
            by simp [validate_workflow_structure, hm, hk, hmiss]⟩
        | seq xs => exact ⟨[Issue.missingFields path missing] ++ boolKeyIssues path keys,
            by simp [validate_workflow_structure, hm, hk, hmiss]⟩

theorem validate_file_aux_issues_mono (env : Env) (fs : FS) (issues : List Issue)
    (p : String) : ExtendsIssues issues (validate_file_aux env fs issues p).issues := by
  cases h : fs p with
  | none =>
    exact ⟨[Issue.cannotRead p file_read_error_details], by simp [validate_file_aux, h]⟩
  | some c =>
    have h1 := validate_yaml_load_issues_mono env fs issues p
    have h2 := validate_workflow_structure_issues_mono
        (validate_yaml_load env fs issues p).1.2 p (validate_yaml_load env fs issues p).2
    simp only [validate_file_aux, h]
    split
    · split
      · exact extends_trans h1 h2
      · exact extends_trans h1 h2
    · exact h1

theorem validate_file_issues_mono (env : Env) (fs : FS) (issues : List Issue)
    (p : String) (af : Bool) :
    ExtendsIssues issues (validate_file env fs issues p af).issues := by
  cases af with
  | false => exact validate_file_aux_issues_mono env fs issues p
  | true =>
    cases h : fs p with
    | none =>
      exact ⟨[Issue.cannotRead p file_read_error_details], by simp [validate_file, h]⟩
    | some content =>
      have h1 := validate_yaml_load_issues_mono env fs issues p
      have h2 := validate_workflow_structure_issues_mono
          (validate_yaml_load env fs issues p).1.2 p (validate_yaml_load env fs issues p).2
      simp only [validate_file, h]
      split
      · split
        · exact extends_trans h1 h2
        · split
          · exact extends_trans h1 h2
          · split
            · exact extends_trans h1 h2
            · split
              · exact extends_trans h1 h2
              · split
                · exact extends_trans h1 h2
                · exact extends_trans h1 h2
      · split
        · exact h1
        · split
          · exact h1
          · split
            · exact h1
            · rename_i fs1 _
              exact extends_trans h1 (validate_file_aux_issues_mono env fs1 _ p)

theorem validate_files_loop_issues_mono (env : Env) (af : Bool) (files : List String) :
    ∀ (fs : FS) (issues : List Issue) (acc : Bool),
      ExtendsIssues issues (validate_files_loop env af files fs issues acc).issues := by
  induction files with
  | nil => intro fs issues acc; exact extends_refl
  | cons p ps ih =>
    intro fs issues acc
    simp only [validate_files_loop]
    have h1 := validate_file_issues_mono env fs issues p af
    split
    · exact h1
    · exact extends_trans h1 (ih _ _ _)

theorem validate_directory_issues_mono (env : Env) (fs : FS) (issues : List Issue)
    (dir : String) (af : Bool) :
    ExtendsIssues issues (validate_directory env fs issues dir af).issues := by
  unfold validate_directory
  split
  · exact extends_refl
  · exact extends_refl
  · exact validate_files_loop_issues_mono env af _ fs issues true

/-- C9: the issue sequence is append-only across every operation of the
validator: the sequence before each operation is a prefix of the sequence
after it (nothing removed, reordered or deduplicated), and report generation
reads the sequence in order without modifying it. -/
theorem issue_sequence_append_only :
    (∀ env fs issues p, ∃ d, (validate_yaml_load env fs issues p).2 = issues ++ d)
    ∧ (∀ data path issues,
        ∃ d, (validate_workflow_structure data path issues).2 = issues ++ d)
    ∧ (∀ env fs issues p af,
        ∃ d, (validate_file env fs issues p af).issues = issues ++ d)
    ∧ (∀ env fs issues dir af,
        ∃ d, (validate_directory env fs issues dir af).issues = issues ++ d)
    ∧ (∀ issues, (get_report issues).issues = issues.map renderIssue
        ∧ (get_report issues).total_issues = issues.length) :=
  ⟨fun env fs issues p => validate_yaml_load_issues_mono env fs issues p,
   fun data path issues => validate_workflow_structure_issues_mono data path issues,
   fun env fs issues p af => validate_file_issues_mono env fs issues p af,
   fun env fs issues dir af => validate_directory_issues_mono env fs issues dir af,
   fun _ => ⟨rfl, rfl⟩⟩

/-! ## Claim C4: sanitizer lemmas -/

theorem listStartsWith_of_append (p q l : List Char)
    (h : listStartsWith (p ++ q) l = true) : listStartsWith p l = true := by
  induction p generalizing l with
  | nil => rfl
  | cons x p ih =>
    cases l with
    | nil => simp [listStartsWith] at h
    | cons c cs =>
      simp only [List.cons_append, listStartsWith, Bool.and_eq_true] at h ⊢
      exact ⟨h.1, ih cs h.2⟩

theorem isFenceStart_eq_isFenceEnd (l : List Char) :
    isFenceStart l = isFenceEnd l := by
  unfold isFenceStart isFenceEnd
  cases h3 : listStartsWith fence3 (pyStrip l)
  · have hy3 : listStartsWith fenceYaml3 (pyStrip l) = false := by
      cases hc : listStartsWith fenceYaml3 (pyStrip l)
      · rfl
      · have := listStartsWith_of_append fence3 (String.toList ("yaml")) (pyStrip l)
          (by rw [show fence3 ++ String.toList ("yaml") = fenceYaml3 from rfl]; exact hc)
        rw [h3] at this; cases this
    have hy4 : listStartsWith fenceYaml4 (pyStrip l) = false := by
      cases hc : listStartsWith fenceYaml4 (pyStrip l)
      · rfl
      · have := listStartsWith_of_append fence3 (String.toList ("`yaml")) (pyStrip l)
          (by rw [show fence3 ++ String.toList ("`yaml") = fenceYaml4 from rfl]; exact hc)
        rw [h3] at this; cases this
    have h4 : listStartsWith fence4 (pyStrip l) = false := by
      cases hc : listStartsWith fence4 (pyStrip l)
      · rfl
      · have := listStartsWith_of_append fence3 (String.toList ("`")) (pyStrip l)
          (by rw [show fence3 ++ String.toList ("`") = fence4 from rfl]; exact hc)
        rw [h3] at this; cases this
    simp [hy3, hy4, h3, h4]
  · simp [h3]

theorem pyStrip_cons_ws (a : Char) (l : List Char) (ha : pyWs a = true) :
    pyStrip (a :: l) = pyStrip l := by
  unfold pyStrip
  rw [List.dropWhile_cons, if_pos ha]

theorem pyStrip_concat_ws (l : List Char) (a : Char) (ha : pyWs a = true) :
    pyStrip (l ++ [a]) = pyStrip l := by
  unfold pyStrip
  rcases h : l.dropWhile pyWs with _ | ⟨b, t⟩
  · rw [dropWhile_append_eq, if_pos h]
    simp [List.dropWhile_cons, ha, rdropWhileP]
  · rw [dropWhile_append_eq, if_neg (by rw [h]; simp), h, rdropWhileP_concat, if_pos ha, ← h]

theorem isFenceEnd_cons_ws (a : Char) (l : List Char) (ha : pyWs a = true) :
    isFenceEnd (a :: l) = isFenceEnd l := by
  unfold isFenceEnd
  rw [pyStrip_cons_ws a l ha]

theorem isFenceEnd_concat_ws (l : List Char) (a : Char) (ha : pyWs a = true) :
    isFenceEnd (l ++ [a]) = isFenceEnd l := by
  unfold isFenceEnd
  rw [pyStrip_concat_ws l a ha]

theorem splitChar_concat_sep (c : Char) (l : List Char) :
    splitChar c (l ++ [c]) = splitChar c l ++ [[]] := by
  have := splitChar_append c l []
  simpa [splitChar] using this

theorem splitChar_concat_ne (c a : Char) (l : List Char) (hac : a ≠ c) :
    ∃ I last, splitChar c l = I ++ [last]
      ∧ splitChar c (l ++ [a]) = I ++ [last ++ [a]] := by
  induction l with
  | nil =>
    refine ⟨[], [], rfl, ?_⟩
    obtain ⟨h, t, hs, hc⟩ := splitChar_cons_ne c a [] hac
    simp only [splitChar] at hs
    injection hs with e1 e2
    subst e1; subst e2
    simpa using hc
  | cons b l ih =>
    obtain ⟨I, last, hl, hla⟩ := ih
    by_cases hbc : b = c
    · subst hbc
      rw [splitChar_cons_sep, hl]
      refine ⟨[] :: I, last, rfl, ?_⟩
      rw [List.cons_append, splitChar_cons_sep, hla]
      rfl
    · obtain ⟨h₁, t₁, hs₁, hc₁⟩ := splitChar_cons_ne c b l hbc
      obtain ⟨h₂, t₂, hs₂, hc₂⟩ := splitChar_cons_ne c b (l ++ [a]) hbc
      cases I with
      | nil =>
        simp only [List.nil_append] at hl hla
        rw [hl] at hs₁; injection hs₁ with e1 e2; subst e1; subst e2
        rw [hla] at hs₂; injection hs₂ with e1 e2; subst e1; subst e2
        refine ⟨[], b :: last, by simpa using hc₁, ?_⟩
        rw [List.cons_append, hc₂]
        simp
      | cons i₀ I₂ =>
        rw [hl] at hs₁
        simp only [List.cons_append] at hs₁
        injection hs₁ with e1 e2; subst e1; subst e2
        rw [hla] at hs₂
        simp only [List.cons_append] at hs₂
        injection hs₂ with e1 e2; subst e1; subst e2
        refine ⟨(b :: i₀) :: I₂, last, by simpa using hc₁, ?_⟩
        rw [List.cons_append, hc₂]
        simp

/-- No line of the string is a fence-marker line. -/
def NoFenceLines (s : List Char) : Prop :=
  ∀ l ∈ splitChar '\n' s, isFenceEnd l = false

theorem noFence_dropWhile (s : List Char) (h : NoFenceLines s) :
    NoFenceLines (s.dropWhile pyWs) := by
  induction s with
  | nil => simpa using h
  | cons a s ih =>
    by_cases hp : pyWs a
    · rw [List.dropWhile_cons, if_pos hp]
      apply ih
      by_cases hnl : a = '\n'
      · subst hnl
        intro l hl
        exact h l (by rw [splitChar_cons_sep]; exact List.mem_cons_of_mem _ hl)
      · obtain ⟨h₁, t₁, hs, hc⟩ := splitChar_cons_ne '\n' a s hnl
        intro l hl
        rw [hs] at hl
        rcases List.mem_cons.mp hl with rfl | hl
        · have := h (a :: l) (by rw [hc]; exact List.mem_cons_self _ _)
          rw [isFenceEnd_cons_ws a l hp] at this
          exact this
        · exact h l (by rw [hc]; exact List.mem_cons_of_mem _ hl)
    · rw [List.dropWhile_cons, if_neg hp]
      exact h

theorem noFence_rdrop (s : List Char) (h : NoFenceLines s) :
    NoFenceLines (rdropWhileP pyWs s) := by
  induction s using List.reverseRecOn with
  | nil => simpa [rdropWhileP] using h
  | append_singleton l a ih =>
    by_cases hp : pyWs a
    · rw [rdropWhileP_concat, if_pos hp]
      apply ih
      by_cases hnl : a = '\n'
      · subst hnl
        intro x hx
        exact h x (by rw [splitChar_concat_sep]; exact List.mem_append_left _ hx)
      · obtain ⟨I, last, hl, hla⟩ := splitChar_concat_ne '\n' a l hnl
        intro x hx
        rw [hl] at hx
        rcases List.mem_append.mp hx with hx | hx
        · exact h x (by rw [hla]; exact List.mem_append_left _ hx)
        · rcases List.mem_singleton.mp hx with rfl
          have := h (x ++ [a]) (by rw [hla]; exact List.mem_append_right _ (by simp))
          rw [isFenceEnd_concat_ws x a hp] at this
          exact this
    · rw [rdropWhileP_concat, if_neg hp]
      exact h

theorem noFence_pyStrip (s : List Char) (h : NoFenceLines s) :
    NoFenceLines (pyStrip s) :=
  noFence_rdrop _ (noFence_dropWhile s h)

theorem takeLen_append {α : Type} (x y : List α) : (x ++ y).take x.length = x := by
  induction x with
  | nil => rfl
  | cons a x ih => simp [ih]

/-- C4: the sanitizer satisfies the round-trip properties: a body wrapped in
a yaml-tagged opening fence line and a closing fence line comes back trimmed;
an input with no fence-marker lines comes back trimmed and otherwise
unchanged; and the empty input yields the empty output. -/
theorem sanitizer_roundtrip :
    (∀ B : List Char,
      clean_ai_response (fenceYaml3 ++ '\n' :: (B ++ '\n' :: fence3)) = pyStrip B)
    ∧ (∀ s : List Char, (∀ l ∈ splitChar '\n' s, isFenceStart l = false) →
        clean_ai_response s = pyStrip s)
    ∧ clean_ai_response [] = [] := by
  refine ⟨?_, ?_, rfl⟩
  · intro B
    have hne : (fenceYaml3 ++ '\n' :: (B ++ '\n' :: fence3)) ≠ [] := by
      intro h
      have h2 := (List.append_eq_nil.mp h).2
      cases h2
    have hstrip : pyStrip (fenceYaml3 ++ '\n' :: (B ++ '\n' :: fence3))
        = fenceYaml3 ++ '\n' :: (B ++ '\n' :: fence3) := by
      have h := pyStrip_eq_self_of_blocks fenceYaml3 ('\n' :: (B ++ ['\n'])) fence3
        (by decide) (by decide) (by decide) (by decide)
      have heq : fenceYaml3 ++ ('\n' :: (B ++ ['\n'])) ++ fence3
          = fenceYaml3 ++ '\n' :: (B ++ '\n' :: fence3) := by
        simp [List.append_assoc]
      rw [heq] at h
      exact h
    have hsplit : splitChar '\n' (fenceYaml3 ++ '\n' :: (B ++ '\n' :: fence3))
        = fenceYaml3 :: (splitChar '\n' B ++ [fence3]) := by
      rw [splitChar_append, splitChar_append]
      rw [splitChar_no_sep '\n' fenceYaml3 (by decide),
        splitChar_no_sep '\n' fence3 (by decide)]
      simp
    have hfs : isFenceStart fenceYaml3 = true := by decide
    have hfe : isFenceEnd fence3 = true := by decide
    have h1 : findIdxP isFenceStart (fenceYaml3 :: (splitChar '\n' B ++ [fence3]))
        = some 0 := by
      simp [findIdxP, hfs]
    have h2 : findIdxP isFenceEnd
        ((fenceYaml3 :: (splitChar '\n' B ++ [fence3])).reverse) = some 0 := by
      have hrev : (fenceYaml3 :: (splitChar '\n' B ++ [fence3])).reverse
          = fence3 :: ((splitChar '\n' B).reverse ++ [fenceYaml3]) := by simp
      rw [hrev]
      simp [findIdxP, hfe]
    simp only [clean_ai_response]
    rw [if_neg hne, hstrip, hsplit, h1, h2]
    have hlen : (fenceYaml3 :: (splitChar '\n' B ++ [fence3])).length - 1 - 0
        = (splitChar '\n' B).length + 1 := by
      simp
    simp only [hlen]
    rw [List.take_succ_cons, takeLen_append]
    simp only [List.drop_succ_cons, List.drop_zero]
    rw [joinChar_splitChar]
  · intro s h
    by_cases hs : s = []
    · subst hs; rfl
    · have hNF : NoFenceLines s := by
        intro l hl
        rw [← isFenceStart_eq_isFenceEnd]
        exact h l hl
      have hNFt := noFence_pyStrip s hNF
      have h1 : findIdxP isFenceStart (splitChar '\n' (pyStrip s)) = none := by
        rw [findIdxP_eq_none_iff]
        intro l hl
        rw [isFenceStart_eq_isFenceEnd]
        exact hNFt l hl
      have h2 : findIdxP isFenceEnd ((splitChar '\n' (pyStrip s)).reverse) = none := by
        rw [findIdxP_eq_none_iff]
        intro l hl
        exact hNFt l (List.mem_reverse.mp hl)
      simp only [clean_ai_response]
      rw [if_neg hs, h1, h2]
      rw [List.take_length, List.drop_zero, joinChar_splitChar, pyStrip_idem]

/-- C4 witness: a concrete fenced body round-trips to its trimmed form, and a
concrete fence-free input is returned trimmed. -/
theorem sanitizer_roundtrip_witness :
    clean_ai_response (fenceYaml3 ++ '\n' :: (String.toList ("name: ci ")
        ++ '\n' :: fence3)) = pyStrip (String.toList ("name: ci "))
    ∧ clean_ai_response (String.toList (" hello: world "))
        = pyStrip (String.toList (" hello: world ")) :=
  ⟨sanitizer_roundtrip.1 (String.toList ("name: ci ")),
   sanitizer_roundtrip.2.1 (String.toList (" hello: world ")) (by decide)⟩

end WorkflowValidatorModel
